import Mathlib

/-!
Verification development for the jfjson converter core.

The authoritative implementation is `src/src/jfjson/core.py` (the packaged
module, as selected by the package_dir entry in `setup.py`).  The stale
duplicate at `src/jfjson/core.py` is embedded separately in namespace
`RootJfjson`.

The embedding is shallow: Python JSON trees become `Value`, Python runtime
objects (what `read` produces and `write` consumes) become `SValue`, and the
runtime type annotations that `read` dispatches on become `Ty`.  Python
exceptions become `Except Err`: `JsonConversionError` is `Err.conv`, and any
other uncaught exception (`TypeError`, `KeyError`, `IndexError`) is
`Err.uncaught`.  Error messages are kept structurally (`ErrMsg`) rather than
as rendered f-strings; each variant carries exactly the data interpolated
into the corresponding source message.
-/

/-- A decoded JSON tree, as produced by `json.load`: the possible inputs of
`read` and outputs of `write`.  The converter never inspects the numeric
content of a float, so the float payload is an uninterpreted `Int` token. -/
inductive Value where
  | null
  | bool (b : Bool)
  | int (n : Int)
  | float (f : Int)
  | str (s : String)
  | list (xs : List Value)
  | dict (entries : List (String × Value))

/-- A Python dict key as seen by `write_rec`: JSON requires `str`, but the
input object may carry other hashable keys (the tests use `None` and
`bytes` keys). -/
inductive JKey where
  | str (s : String)
  | int (n : Int)
  | bool (b : Bool)
  | nullKey
  | bytes (s : String)

/-- A Python runtime object: what `read` returns and `write` consumes.
`inst` is a class instance exposing an ordered attribute mapping (covering
both `__dict__` objects and `NamedTuple._asdict()`); `enumv` is an enum
member carrying its class name, member name and stored value; `exotic` is
an object with neither `__dict__` nor `_asdict` (such as `bytes`), which is
unwritable. -/
inductive SValue where
  | null
  | bool (b : Bool)
  | int (n : Int)
  | float (f : Int)
  | str (s : String)
  | list (xs : List SValue)
  | dict (entries : List (JKey × SValue))
  | inst (name : String) (fields : List (String × SValue))
  | enumv (ename : String) (member : String) (value : Value)
  | exotic (tag : String)

/-- A type annotation, as the converter observes it through the runtime
attributes `__args__`, `__origin__`, `EnumMeta` and the annotation dict:
`any` is `typing.Any`; `tnone` is `type(None)`; `tbool`, `tint`, `tfloat`
and `tstr` are the builtin leaf classes; `tlist e` is `List[e]`;
`tdict k v` is `Dict[k, v]`; `union alts` is `Union[alts...]`
(`Optional[X]` is `union [X, tnone]`); `tenum` is an `Enum` subclass with
its ordered member-name/stored-value pairs; `record` is a class whose
annotation dict is `fields` and whose constructor defaults are
`defaults`. -/
inductive Ty where
  | any
  | tnone
  | tbool
  | tint
  | tfloat
  | tstr
  | tlist (elem : Ty)
  | tdict (key : Ty) (value : Ty)
  | union (alts : List Ty)
  | tenum (name : String) (members : List (String × Value))
  | record (name : String) (fields : List (String × Ty))
      (defaults : List (String × SValue))

/-- The Python class of a JSON value, as rendered by interpolating
`type(obj)` into an error message. -/
inductive PyClass where
  | noneC | boolC | intC | floatC | strC | listC | dictC

/-- What an f-string interpolation of a type expression renders: either a
plain annotation object (interpolating `target`) or one of the bare objects
that `__origin__` can be (`list`, `dict`, `typing.Union`). -/
inductive TyRender where
  | ofTy (t : Ty)
  | listClass
  | dictClass
  | unionForm

/-- An underlying Python exception preserved as the chained context when
the code re-raises a `JsonConversionError` from inside an except block:
either a constructor failure (with the missing field names) or a failed
enum member lookup. -/
inductive FailCause where
  | ctorFailure (name : String) (missing : List String)
  | enumLookupFailure (value : Value)

/-- The structured content of a `JsonConversionError` message.  Each
variant carries exactly the data the source interpolates into the
corresponding f-string. -/
inductive ErrMsg where
  | typeMismatch (found : PyClass) (expected : TyRender)
  | noListCandidate (found : PyClass) (alts : List Ty)
  | ambiguousList (possibilities : List Ty) (obj : Value)
  | noDictCandidate (found : PyClass) (targets : List Ty)
  | ambiguousDict (possibilities : List Ty) (obj : Value)
  | dictKeysNotString (keyType : Ty)
  | targetNotType (target : Ty)
  | unknownAttrs (expected : List String) (found : List String)
  | objectCreationFailed (name : String) (kwargs : List (String × SValue))
  | invalidEnum
  | badWriteKeys (keys : List JKey)
  | cannotWrite (obj : SValue)

/-- A `JsonConversionError`: unformatted message, location, and the chained
context exception when the error was raised inside an except block. -/
structure ConvError where
  msg : ErrMsg
  loc : String
  cause : Option FailCause := none

/-- Outcome of a conversion step: a `JsonConversionError`, or any other
uncaught exception (a `TypeError`, `KeyError` or `IndexError` escaping the
code). -/
inductive Err where
  | conv (e : ConvError)
  | uncaught

mutual
/-- Python equality on JSON values, used by the enum member lookup
(`target(obj)`).  Structural on this model; Python additionally conflates
`True == 1` and `1 == 1.0`, which no claim exercises (and the float payload
is an uninterpreted token here anyway). -/
def pyEq : Value → Value → Bool
  | .null, .null => true
  | .bool a, .bool b => a == b
  | .int a, .int b => a == b
  | .float a, .float b => a == b
  | .str a, .str b => a == b
  | .list xs, .list ys => pyEqL xs ys
  | .dict xs, .dict ys => pyEqD xs ys
  | _, _ => false

def pyEqL : List Value → List Value → Bool
  | [], [] => true
  | x :: xs, y :: ys => pyEq x y && pyEqL xs ys
  | _, _ => false

def pyEqD : List (String × Value) → List (String × Value) → Bool
  | [], [] => true
  | (k, v) :: xs, (l, w) :: ys => k == l && pyEq v w && pyEqD xs ys
  | _, _ => false
end

mutual
/-- The injection of a JSON tree into the runtime-object model: `read`
returns its input object unchanged in several branches (`Any` targets,
leaves), and this spells out what that same object is as an `SValue`. -/
def Value.toS : Value → SValue
  | .null => .null
  | .bool b => .bool b
  | .int n => .int n
  | .float f => .float f
  | .str s => .str s
  | .list xs => .list (toSL xs)
  | .dict es => .dict (toSD es)

def Value.toSL : List Value → List SValue
  | [] => []
  | x :: rest => x.toS :: toSL rest

def Value.toSD : List (String × Value) → List (JKey × SValue)
  | [] => []
  | (k, v) :: rest => (JKey.str k, v.toS) :: toSD rest
end

/-- The `__args__` attribute of an annotation: the element type of a
`List`, the key/value pair of a `Dict`, the alternatives of a `Union`;
absent (`None`) on everything else. -/
def tyArgs : Ty → Option (List Ty)
  | .tlist e => some [e]
  | .tdict k v => some [k, v]
  | .union alts => some alts
  | _ => none

/-- What `getattr(target, "__origin__", target)` yields: the bare `list`,
`dict` or `typing.Union` object for the generic annotations, and the target
itself for everything else. -/
inductive TyOrigin where
  | listO
  | dictO
  | unionO
  | self (t : Ty)

def tyOrigin : Ty → TyOrigin
  | .tlist _ => .listO
  | .tdict _ _ => .dictO
  | .union _ => .unionO
  | t => .self t

/-- Whether the origin is the bare `typing.Union` object. -/
def TyOrigin.isUnion : TyOrigin → Bool
  | .unionO => true
  | _ => false

/-- Whether the origin is `type(None)` (identity comparison in source). -/
def TyOrigin.isNoneType : TyOrigin → Bool
  | .self .tnone => true
  | _ => false

/-- The identity test `getattr(t, "__origin__", None) is list`. -/
def isListOrigin : Ty → Bool
  | .tlist _ => true
  | _ => false

/-- The identity test `type(None)` membership: an annotation equals the
`NoneType` class exactly when it is that class. -/
def isTNone : Ty → Bool
  | .tnone => true
  | _ => false

/-- Direct translation of `valid_type_for_dict`: the annotation is none of
the leaf classes `(type(None), str, int, float, bool)` and its origin is
not `list`.  Note that `Any`, `Dict`, unions, records and enums all
pass. -/
def valid_type_for_dict : Ty → Bool
  | .tnone | .tstr | .tint | .tfloat | .tbool => false
  | .tlist _ => false
  | _ => true

/-- The Python class of a JSON value (`type(obj)`). -/
def Value.pyType : Value → PyClass
  | .null => .noneC
  | .bool _ => .boolC
  | .int _ => .intC
  | .float _ => .floatC
  | .str _ => .strC
  | .list _ => .listC
  | .dict _ => .dictC

/-- The membership test `type(obj) in allowed_types` for a single allowed
annotation: the class of a leaf value equals an annotation object exactly
when that annotation is the corresponding bare class (a generic like
`List[int]` never equals a class, and `bool` is never `int`). -/
def tyIsClassOf (c : PyClass) : Ty → Bool
  | .tbool => match c with | .boolC => true | _ => false
  | .tint => match c with | .intC => true | _ => false
  | .tfloat => match c with | .floatC => true | _ => false
  | .tstr => match c with | .strC => true | _ => false
  | .tnone => match c with | .noneC => true | _ => false
  | _ => false

/-- The membership test `type(obj) in (origin,)` for a non-union target:
the bare `list` and `dict` origin objects never equal a leaf class. -/
def originHasLeafClass : TyOrigin → PyClass → Bool
  | .self t, c => tyIsClassOf c t
  | _, _ => false

/-- The `isinstance(target, type)` check in `read_class_instance`: classes
(builtin leaves, `type(None)`, enums, records) are types; `typing.Any`,
`List[...]`, `Dict[...]` and unions are not (Python 3.7 to 3.9, the
versions this package declares). -/
def isPyType : Ty → Bool
  | .any => false
  | .tlist _ => false
  | .tdict _ _ => false
  | .union _ => false
  | _ => true

/-- The `getattr(target, "__annotations__", dict())` lookup: a record
exposes its field annotations, every other reachable target an empty
dict. -/
def attrsOf : Ty → List (String × Ty)
  | .record _ fields _ => fields
  | _ => []

/-- `target.__name__`, used in the object-creation error message. -/
def tyName : Ty → String
  | .record n _ _ => n
  | .tenum n _ => n
  | .tnone => "NoneType"
  | .tbool => "bool"
  | .tint => "int"
  | .tfloat => "float"
  | .tstr => "str"
  | _ => "type"

/-- The call `target(**kwargs)`.  For a record (dataclass or NamedTuple),
construction succeeds exactly when every field lacking a default is
supplied, assembling the attribute mapping in field-declaration order; a
missing required field raises a `TypeError` naming it.  Calling an enum
class with keyword arguments raises a `TypeError` (missing the positional
`value`); no other target reaches this call from `read_rec`. -/
def constructTy : Ty → List (String × SValue) → Except FailCause SValue
  | .record name fields dflts, kwargs =>
    let missing := (fields.map Prod.fst).filter (fun k =>
      !((kwargs.map Prod.fst).contains k) && !((dflts.map Prod.fst).contains k))
    if missing.isEmpty = false then
      .error (.ctorFailure name missing)
    else
      .ok (.inst name (fields.filterMap (fun p =>
        match List.lookup p.1 kwargs with
        | some v => some (p.1, v)
        | none => (List.lookup p.1 dflts).map (fun v => (p.1, v)))))
  | .tenum name _, _ => .error (.ctorFailure name ["value"])
  | t, _ => .error (.ctorFailure (tyName t) [])

/-- The test `loc.endswith(".")`: the location string has a final dot.
Phrased via the character list so that it evaluates in the kernel. -/
def endsWithDot (loc : String) : Bool :=
  loc.data.getLast? == some (Char.ofNat 46)

/-- Whether a `write` dict key is a `str` (`isinstance(key, str)`). -/
def isStrKey : JKey → Bool
  | .str _ => true
  | _ => false

namespace Jfjson

/-! The reader of the packaged copy, `src/src/jfjson/core.py`.  `read_rec`
is the dispatcher; `read_class_instance` reads a JSON dict as a class
instance; `read_kwargs` is the kwargs comprehension inside it, and
`read_list_items` the element comprehension of the list branch.  The
value comprehension of the `Dict[...]` branch (source lines 155 to 158)
is unreachable, because the guard before it compares the whole `__args__`
tuple with `str` and therefore always raises; it is omitted here. -/

mutual
def read_rec (obj : Value) (target : Ty) (loc : String) : Except Err SValue :=
  match target with
  | .any =>
    -- special case: do no type checking or additional parsing
    .ok obj.toS
  | _ =>
    let type_args := tyArgs target
    let type_err : Err :=
      .conv ⟨.typeMismatch obj.pyType (.ofTy target), loc, none⟩
    match target with
    | .tenum ename members =>
      -- special handling for reading an enum: value lookup, "Invalid enum"
      -- on a miss, chaining the lookup failure
      match members.find? (fun m => pyEq m.2 obj) with
      | some m => .ok (.enumv ename m.1 m.2)
      | none => .error (.conv ⟨.invalidEnum, loc, some (.enumLookupFailure obj)⟩)
    | _ =>
      match obj with
      | .null =>
        let is_optional := (tyOrigin target).isUnion &&
          (type_args.getD []).any isTNone
        if !(tyOrigin target).isNoneType && !is_optional then
          .error type_err
        else
          .ok .null
      | .bool _ | .int _ | .float _ | .str _ =>
        let allowed := if (tyOrigin target).isUnion then
            (type_args.getD []).any (tyIsClassOf obj.pyType)
          else
            originHasLeafClass (tyOrigin target) obj.pyType
        if allowed = false then .error type_err else .ok obj.toS
      | .list xs => do
        let resolved ←
          if (tyOrigin target).isUnion then
            let alts := type_args.getD []
            let possibilities := alts.filter isListOrigin
            if possibilities.isEmpty then
              Except.error (.conv ⟨.noListCandidate obj.pyType alts, loc, none⟩)
            else if 1 < possibilities.length then
              Except.error (.conv ⟨.ambiguousList possibilities (.list xs), loc, none⟩)
            else
              match possibilities.head? with
              | some t2 => Except.ok (t2, tyArgs t2)
              | none => Except.error Err.uncaught
          else
            Except.ok (target, type_args)
        -- inner_type = type_args[0]: subscripting an absent __args__ raises
        -- an uncaught TypeError (e.g. a list value against a plain class)
        match resolved.2 with
        | some (inner :: _) => do
          let rs ← read_list_items xs inner loc 0
          Except.ok (.list rs)
        | _ => Except.error Err.uncaught
      | .dict entries =>
        let targets := if (tyOrigin target).isUnion then type_args.getD []
          else [target]
        let possibilities := targets.filter valid_type_for_dict
        if possibilities.isEmpty then
          .error (.conv ⟨.noDictCandidate obj.pyType targets, loc, none⟩)
        else if 1 < possibilities.length then
          .error (.conv ⟨.ambiguousDict possibilities (.dict entries), loc, none⟩)
        else
          match possibilities.head? with
          | none => .error Err.uncaught
          | some t2 =>
            match t2 with
            | .tdict key_type _ =>
              -- source guard: `if type_args != str`.  It compares the whole
              -- __args__ tuple (key_type, value_type) with the class str; a
              -- tuple never equals str, so reading a dict against Dict[...]
              -- always raises here and the comprehension below is dead code.
              .error (.conv ⟨.dictKeysNotString key_type, loc, none⟩)
            | _ => read_class_instance entries t2 loc
termination_by (sizeOf obj, 2)
decreasing_by all_goals (simp_wf; omega)

def read_class_instance (entries : List (String × Value)) (target : Ty)
    (loc : String) : Except Err SValue :=
  if isPyType target = false then
    .error (.conv ⟨.targetNotType target, loc, none⟩)
  else
    let attrs := attrsOf target
    let extra_attrs := (entries.map Prod.fst).filter (fun key =>
      !((attrs.map Prod.fst).contains key))
    if extra_attrs.isEmpty = false then
      .error (.conv ⟨.unknownAttrs (attrs.map Prod.fst) extra_attrs, loc, none⟩)
    else do
      -- make sure our location ends with a .
      let sub_loc := if endsWithDot loc then loc else loc ++ "."
      let kwargs ← read_kwargs entries attrs sub_loc
      match constructTy target kwargs with
      | .ok v => Except.ok v
      | .error cause =>
        Except.error (.conv ⟨.objectCreationFailed (tyName target) kwargs, loc,
          some cause⟩)
termination_by (sizeOf entries, 1)
decreasing_by all_goals (simp_wf; omega)

def read_kwargs (entries : List (String × Value)) (attrs : List (String × Ty))
    (sub_loc : String) : Except Err (List (String × SValue)) :=
  match entries with
  | [] => Except.ok []
  | (key, value) :: rest =>
    match List.lookup key attrs with
    | none =>
      -- attrs[key] on an absent key is an uncaught KeyError; unreachable
      -- from read_class_instance, which rejected unknown keys already
      Except.error Err.uncaught
    | some fieldTy => do
      let v ← read_rec value fieldTy (sub_loc ++ key)
      let vs ← read_kwargs rest attrs sub_loc
      Except.ok ((key, v) :: vs)
termination_by (sizeOf entries, 0)
decreasing_by all_goals (simp_wf; omega)

def read_list_items (xs : List Value) (inner : Ty) (loc : String) (i : Nat) :
    Except Err (List SValue) :=
  match xs with
  | [] => Except.ok []
  | x :: rest => do
    let v ← read_rec x inner (loc ++ "[" ++ toString i ++ "]")
    let vs ← read_list_items rest inner loc (i + 1)
    Except.ok (v :: vs)
termination_by (sizeOf xs, 0)
decreasing_by all_goals (simp_wf; omega)
end

/-- The public entry point: read at the root location. -/
def read (obj : Value) (target : Ty) : Except Err SValue :=
  read_rec obj target "."

end Jfjson

/-! Sizes for the writer termination measure.  Keys weigh nothing so that
the attribute dict a class instance exposes is smaller than the instance
itself. -/

mutual
def svSize : SValue → Nat
  | .list xs => 1 + svSizeL xs
  | .dict es => 1 + svSizeD es
  | .inst _ fs => 3 + svSizeF fs
  | _ => 1

def svSizeL : List SValue → Nat
  | [] => 0
  | x :: rest => 1 + svSize x + svSizeL rest

def svSizeD : List (JKey × SValue) → Nat
  | [] => 0
  | (_, v) :: rest => 1 + svSize v + svSizeD rest

def svSizeF : List (String × SValue) → Nat
  | [] => 0
  | (_, v) :: rest => 1 + svSize v + svSizeF rest
end

theorem svSizeD_map_str (fs : List (String × SValue)) :
    svSizeD (fs.map (fun p => (JKey.str p.1, p.2))) = svSizeF fs := by
  induction fs with
  | nil => simp [svSizeD, svSizeF]
  | cons p rest ih => simp [svSizeD, svSizeF, ih]

namespace Jfjson

/-! The writer of the packaged copy.  `write_list_items` and
`write_dict_items` are the comprehensions of the list and dict branches. -/

mutual
def write_rec (obj : SValue) (loc : String) : Except Err Value :=
  match obj with
  | .null => .ok .null
  | .bool b => .ok (.bool b)
  | .int n => .ok (.int n)
  | .float f => .ok (.float f)
  | .str s => .ok (.str s)
  | .enumv _ _ v =>
    -- isinstance(obj, Enum): return obj.value
    .ok v
  | .list xs => do
    let rs ← write_list_items xs loc 0
    Except.ok (.list rs)
  | .dict entries =>
    let bad_keys := (entries.map Prod.fst).filter (fun k => isStrKey k = false)
    if bad_keys.isEmpty = false then
      .error (.conv ⟨.badWriteKeys bad_keys, loc, none⟩)
    else do
      let locDot := if endsWithDot loc then loc else loc ++ "."
      let rs ← write_dict_items entries locDot
      Except.ok (.dict rs)
  | o => write_class_instance o loc
termination_by (svSize obj, 1)
decreasing_by all_goals (first | (apply Prod.Lex.right; omega) | (apply Prod.Lex.left; simp [svSize, svSizeL, svSizeD, svSizeF, svSizeD_map_str]; try omega))

def write_class_instance (obj : SValue) (loc : String) : Except Err Value :=
  match obj with
  | .inst _ fields =>
    -- hasattr(obj, "__dict__") (and the NamedTuple._asdict() branch):
    -- recurse into the ordered attribute mapping
    write_rec (.dict (fields.map (fun p => (JKey.str p.1, p.2)))) loc
  | .enumv _ member v =>
    -- an enum member also has a __dict__ (holding _name_ and _value_).
    -- In the packaged copy this branch is unreachable since write_rec
    -- resolves enums first.  Writing that string-keyed dict always
    -- succeeds; the result is inlined because the member dict is not a
    -- structurally smaller term.
    Except.ok (.dict [("_name_", .str member), ("_value_", v)])
  | obj => Except.error (.conv ⟨.cannotWrite obj, loc, none⟩)
termination_by (svSize obj, 0)
decreasing_by all_goals (first | (apply Prod.Lex.right; omega) | (apply Prod.Lex.left; simp [svSize, svSizeL, svSizeD, svSizeF, svSizeD_map_str]; try omega))

def write_list_items (xs : List SValue) (loc : String) (i : Nat) :
    Except Err (List Value) :=
  match xs with
  | [] => Except.ok []
  | x :: rest => do
    let v ← write_rec x (loc ++ "[" ++ toString i ++ "]")
    let vs ← write_list_items rest loc (i + 1)
    Except.ok (v :: vs)
termination_by (svSizeL xs, 0)
decreasing_by all_goals (first | (apply Prod.Lex.right; omega) | (apply Prod.Lex.left; simp [svSize, svSizeL, svSizeD, svSizeF, svSizeD_map_str]; try omega))

def write_dict_items (entries : List (JKey × SValue)) (locDot : String) :
    Except Err (List (String × Value)) :=
  match entries with
  | [] => Except.ok []
  | (key, v) :: rest =>
    match key with
    | .str s => do
      let w ← write_rec v (locDot ++ s)
      let ws ← write_dict_items rest locDot
      Except.ok ((s, w) :: ws)
    | _ =>
      -- unreachable: the caller rejected non-string keys already
      Except.error Err.uncaught
termination_by (svSizeD entries, 0)
decreasing_by all_goals (first | (apply Prod.Lex.right; omega) | (apply Prod.Lex.left; simp [svSize, svSizeL, svSizeD, svSizeF, svSizeD_map_str]; try omega))
end

/-- The public entry point: write at the root location. -/
def write (obj : SValue) : Except Err Value :=
  write_rec obj "."

end Jfjson

/-- What the stale copy interpolates into its type error: it renders
`origin` rather than `target`.  For a plain class the two renderings
coincide; for a generic annotation the bare origin object is shown. -/
def renderOrigin : TyOrigin → TyRender
  | .self t => .ofTy t
  | .listO => .listClass
  | .dictO => .dictClass
  | .unionO => .unionForm

namespace RootJfjson

/-! The stale duplicate of the core at `src/jfjson/core.py`.  It differs
from the packaged copy in four ways: its type error interpolates `origin`
instead of `target`; its None branch reads `if origin is not type(None) or
not is_optional` (an `or` where the packaged copy has `and`), which is
always true, so a None value is always rejected; it has no enum handling
in either direction; and `read_class_instance` reassigns `loc` to the
dot-terminated form before the kwargs comprehension, so the
object-creation error carries the dotted location.  Its `write_rec` also
drops the `return` before `write_class_instance`, so writing a class
instance yields None. -/

mutual
def read_rec (obj : Value) (target : Ty) (loc : String) : Except Err SValue :=
  match target with
  | .any =>
    -- special case: do no type checking or additional parsing
    .ok obj.toS
  | _ =>
    let type_args := tyArgs target
    let type_err : Err :=
      .conv ⟨.typeMismatch obj.pyType (renderOrigin (tyOrigin target)), loc, none⟩
    match obj with
    | .null =>
      let is_optional := (tyOrigin target).isUnion &&
        (type_args.getD []).any isTNone
      -- source: `if origin is not type(None) or not is_optional`; the two
      -- disjuncts cannot both be false, so this always raises
      if !(tyOrigin target).isNoneType || !is_optional then
        .error type_err
      else
        .ok .null
    | .bool _ | .int _ | .float _ | .str _ =>
      let allowed := if (tyOrigin target).isUnion then
          (type_args.getD []).any (tyIsClassOf obj.pyType)
        else
          originHasLeafClass (tyOrigin target) obj.pyType
      if allowed = false then .error type_err else .ok obj.toS
    | .list xs => do
      let resolved ←
        if (tyOrigin target).isUnion then
          let alts := type_args.getD []
          let possibilities := alts.filter isListOrigin
          if possibilities.isEmpty then
            Except.error (.conv ⟨.noListCandidate obj.pyType alts, loc, none⟩)
          else if 1 < possibilities.length then
            Except.error (.conv ⟨.ambiguousList possibilities (.list xs), loc, none⟩)
          else
            match possibilities.head? with
            | some t2 => Except.ok (t2, tyArgs t2)
            | none => Except.error Err.uncaught
        else
          Except.ok (target, type_args)
      match resolved.2 with
      | some (inner :: _) => do
        let rs ← read_list_items xs inner loc 0
        Except.ok (.list rs)
      | _ => Except.error Err.uncaught
    | .dict entries =>
      let targets := if (tyOrigin target).isUnion then type_args.getD []
        else [target]
      let possibilities := targets.filter valid_type_for_dict
      if possibilities.isEmpty then
        .error (.conv ⟨.noDictCandidate obj.pyType targets, loc, none⟩)
      else if 1 < possibilities.length then
        .error (.conv ⟨.ambiguousDict possibilities (.dict entries), loc, none⟩)
      else
        match possibilities.head? with
        | none => .error Err.uncaught
        | some t2 =>
          match t2 with
          | .tdict key_type _ =>
            -- same dead guard as the packaged copy: the whole __args__
            -- tuple is compared with str, so this always raises
            .error (.conv ⟨.dictKeysNotString key_type, loc, none⟩)
          | _ => read_class_instance entries t2 loc
termination_by (sizeOf obj, 2)
decreasing_by all_goals (simp_wf; omega)

def read_class_instance (entries : List (String × Value)) (target : Ty)
    (loc : String) : Except Err SValue :=
  if isPyType target = false then
    .error (.conv ⟨.targetNotType target, loc, none⟩)
  else
    let attrs := attrsOf target
    let extra_attrs := (entries.map Prod.fst).filter (fun key =>
      !((attrs.map Prod.fst).contains key))
    if extra_attrs.isEmpty = false then
      .error (.conv ⟨.unknownAttrs (attrs.map Prod.fst) extra_attrs, loc, none⟩)
    else do
      -- the stale copy reassigns loc itself here, so the creation error
      -- below carries the dot-terminated location
      let loc2 := if endsWithDot loc then loc else loc ++ "."
      let kwargs ← read_kwargs entries attrs loc2
      match constructTy target kwargs with
      | .ok v => Except.ok v
      | .error cause =>
        Except.error (.conv ⟨.objectCreationFailed (tyName target) kwargs, loc2,
          some cause⟩)
termination_by (sizeOf entries, 1)
decreasing_by all_goals (simp_wf; omega)

def read_kwargs (entries : List (String × Value)) (attrs : List (String × Ty))
    (sub_loc : String) : Except Err (List (String × SValue)) :=
  match entries with
  | [] => Except.ok []
  | (key, value) :: rest =>
    match List.lookup key attrs with
    | none => Except.error Err.uncaught
    | some fieldTy => do
      let v ← read_rec value fieldTy (sub_loc ++ key)
      let vs ← read_kwargs rest attrs sub_loc
      Except.ok ((key, v) :: vs)
termination_by (sizeOf entries, 0)
decreasing_by all_goals (simp_wf; omega)

def read_list_items (xs : List Value) (inner : Ty) (loc : String) (i : Nat) :
    Except Err (List SValue) :=
  match xs with
  | [] => Except.ok []
  | x :: rest => do
    let v ← read_rec x inner (loc ++ "[" ++ toString i ++ "]")
    let vs ← read_list_items rest inner loc (i + 1)
    Except.ok (v :: vs)
termination_by (sizeOf xs, 0)
decreasing_by all_goals (simp_wf; omega)
end

/-- The stale copy entry point: read at the root location. -/
def read (obj : Value) (target : Ty) : Except Err SValue :=
  read_rec obj target "."

mutual
def write_rec (obj : SValue) (loc : String) : Except Err Value :=
  match obj with
  | .null => .ok .null
  | .bool b => .ok (.bool b)
  | .int n => .ok (.int n)
  | .float f => .ok (.float f)
  | .str s => .ok (.str s)
  | .list xs => do
    let rs ← write_list_items xs loc 0
    Except.ok (.list rs)
  | .dict entries =>
    let bad_keys := (entries.map Prod.fst).filter (fun k => isStrKey k = false)
    if bad_keys.isEmpty = false then
      .error (.conv ⟨.badWriteKeys bad_keys, loc, none⟩)
    else do
      let locDot := if endsWithDot loc then loc else loc ++ "."
      let rs ← write_dict_items entries locDot
      Except.ok (.dict rs)
  | o => do
    -- the stale copy calls write_class_instance without `return`, so the
    -- function falls off the end and returns None unless the call raises
    let _ ← write_class_instance o loc
    Except.ok Value.null
termination_by (svSize obj, 1)
decreasing_by all_goals (first | (apply Prod.Lex.right; omega) | (apply Prod.Lex.left; simp [svSize, svSizeL, svSizeD, svSizeF, svSizeD_map_str]; try omega))

def write_class_instance (obj : SValue) (loc : String) : Except Err Value :=
  match obj with
  | .inst _ fields =>
    write_rec (.dict (fields.map (fun p => (JKey.str p.1, p.2)))) loc
  | .enumv _ member v =>
    -- enum members reach this branch in the stale copy (it has no enum
    -- handling in write_rec); the member __dict__ is string-keyed and its
    -- values always write successfully, so the result is inlined
    Except.ok (.dict [("_name_", .str member), ("_value_", v)])
  | obj => Except.error (.conv ⟨.cannotWrite obj, loc, none⟩)
termination_by (svSize obj, 0)
decreasing_by all_goals (first | (apply Prod.Lex.right; omega) | (apply Prod.Lex.left; simp [svSize, svSizeL, svSizeD, svSizeF, svSizeD_map_str]; try omega))

def write_list_items (xs : List SValue) (loc : String) (i : Nat) :
    Except Err (List Value) :=
  match xs with
  | [] => Except.ok []
  | x :: rest => do
    let v ← write_rec x (loc ++ "[" ++ toString i ++ "]")
    let vs ← write_list_items rest loc (i + 1)
    Except.ok (v :: vs)
termination_by (svSizeL xs, 0)
decreasing_by all_goals (first | (apply Prod.Lex.right; omega) | (apply Prod.Lex.left; simp [svSize, svSizeL, svSizeD, svSizeF, svSizeD_map_str]; try omega))

def write_dict_items (entries : List (JKey × SValue)) (locDot : String) :
    Except Err (List (String × Value)) :=
  match entries with
  | [] => Except.ok []
  | (key, v) :: rest =>
    match key with
    | .str s => do
      let w ← write_rec v (locDot ++ s)
      let ws ← write_dict_items rest locDot
      Except.ok ((s, w) :: ws)
    | _ => Except.error Err.uncaught
termination_by (svSizeD entries, 0)
decreasing_by all_goals (first | (apply Prod.Lex.right; omega) | (apply Prod.Lex.left; simp [svSize, svSizeL, svSizeD, svSizeF, svSizeD_map_str]; try omega))
end

/-- The stale copy entry point: write at the root location. -/
def write (obj : SValue) : Except Err Value :=
  write_rec obj "."

end RootJfjson

/-! Predicates used to state the claims: absence of nulls in a value,
absence of enum descriptors in an annotation, and absence of enum members
and class instances in a runtime object. -/

mutual
def nullFree : Value → Bool
  | .null => false
  | .list xs => nullFreeL xs
  | .dict es => nullFreeD es
  | _ => true

def nullFreeL : List Value → Bool
  | [] => true
  | x :: rest => nullFree x && nullFreeL rest

def nullFreeD : List (String × Value) → Bool
  | [] => true
  | (_, v) :: rest => nullFree v && nullFreeD rest
end

mutual
def enumFree : Ty → Bool
  | .tenum _ _ => false
  | .tlist e => enumFree e
  | .tdict k v => enumFree k && enumFree v
  | .union alts => enumFreeL alts
  | .record _ fields _ => enumFreeF fields
  | _ => true

def enumFreeL : List Ty → Bool
  | [] => true
  | t :: rest => enumFree t && enumFreeL rest

def enumFreeF : List (String × Ty) → Bool
  | [] => true
  | (_, t) :: rest => enumFree t && enumFreeF rest
end

mutual
def plainData : SValue → Bool
  | .enumv _ _ _ => false
  | .inst _ _ => false
  | .list xs => plainDataL xs
  | .dict es => plainDataD es
  | _ => true

def plainDataL : List SValue → Bool
  | [] => true
  | x :: rest => plainData x && plainDataL rest

def plainDataD : List (JKey × SValue) → Bool
  | [] => true
  | (_, v) :: rest => plainData v && plainDataD rest
end

/-- The success projection of a conversion outcome. -/
def okPart {α : Type} : Except Err α → Option α
  | .ok a => some a
  | .error _ => none

/-- The exact set of targets accepting the Null value in the packaged
reader: `Any`, `type(None)`, a union listing `type(None)`, or an enum with
a member whose stored value is None. -/
def nullOk : Ty → Bool
  | .any => true
  | .tnone => true
  | .union alts => alts.any isTNone
  | .tenum _ members => members.any (fun m => pyEq m.2 .null)
  | _ => false

/-- Claim C4 as stated: reading Null succeeds exactly on `Leaf(Null)` or a
union containing `Leaf(Null)`. -/
def ClaimC4 : Prop :=
  ∀ (t : Ty) (loc : String),
    (okPart (Jfjson.read_rec Value.null t loc)).isSome = true ↔
      (t = Ty.tnone ∨ ∃ alts, t = Ty.union alts ∧ Ty.tnone ∈ alts)

/-- Claim C10 as stated: the two copies of the core are observationally
equivalent on `read` and on `write`. -/
def ClaimC10 : Prop :=
  (∀ (obj : Value) (target : Ty),
      Jfjson.read obj target = RootJfjson.read obj target) ∧
  (∀ (obj : SValue), Jfjson.write obj = RootJfjson.write obj)

/-! Concrete descriptors used by the claim theorems. -/

/-- A record with one map-typed field, `M(d: Dict[str, int])`. -/
def tyM : Ty := .record "M" [("d", .tdict .tstr .tint)] []

/-- The instance `M(d={"a": 1})`. -/
def vM : SValue := .inst "M" [("d", .dict [(.str "a", .int 1)])]

/-- The record descriptors of the test suite: `C(s: str)`,
`T(x: str, y: int = 0, z: Optional[float] = None)`, `B(cs: List[C], t: T)`
and `A(b: B)`. -/
def tyC : Ty := .record "C" [("s", .tstr)] []

def tyT : Ty := .record "T" [("x", .tstr), ("y", .tint), ("z", .union [.tfloat, .tnone])]
  [("y", .int 0), ("z", .null)]

def tyB : Ty := .record "B" [("cs", .tlist tyC), ("t", tyT)] []

def tyA : Ty := .record "A" [("b", tyB)] []


/-- Claim C1: the round-trip property fails on the code.  Writing the
record value `M(d={"a": 1})` succeeds, but reading the written form back
against `M` (which has no Any-typed field) does not reproduce the value:
it raises the spurious key-type error of the `Dict[...]` branch at the
field location `.d`. -/
theorem c1_roundtrip_fails_on_map_field :
    Jfjson.write vM = .ok (.dict [("d", .dict [("a", .int 1)])]) ∧
    Jfjson.read (.dict [("d", .dict [("a", .int 1)])]) tyM =
      .error (.conv ⟨.dictKeysNotString .tstr, ".d", none⟩) := by
  constructor
  · simp +decide [Jfjson.write, Jfjson.write_rec, Jfjson.write_class_instance,
      Jfjson.write_list_items, Jfjson.write_dict_items, vM, isStrKey, endsWithDot,
      Bind.bind, Except.bind, Pure.pure, Except.pure]
  · simp +decide [Jfjson.read, Jfjson.read_rec, Jfjson.read_class_instance,
      Jfjson.read_kwargs, Jfjson.read_list_items, tyM, tyArgs, tyOrigin,
      TyOrigin.isUnion, TyOrigin.isNoneType, isListOrigin, isTNone,
      valid_type_for_dict, Value.pyType, tyIsClassOf, originHasLeafClass,
      isPyType, attrsOf, tyName, constructTy, List.lookup, endsWithDot,
      Value.toS, Value.toSL, Value.toSD, pyEq,
      Bind.bind, Except.bind, Pure.pure, Except.pure]

/-- Claim C2: reading a mapping against `Dict[str, int]` does not succeed
as the claim states; the guard `type_args != str` compares the whole
argument tuple with `str` and therefore always raises the key-type error,
even though the key annotation is exactly `str`. -/
theorem c2_mapof_read_always_fails :
    Jfjson.read (.dict [("a", .int 1)]) (.tdict .tstr .tint) =
      .error (.conv ⟨.dictKeysNotString .tstr, ".", none⟩) := by
  simp +decide [Jfjson.read, Jfjson.read_rec, tyArgs, tyOrigin,
    TyOrigin.isUnion, valid_type_for_dict, Value.pyType,
    Bind.bind, Except.bind, Pure.pure, Except.pure]

/-- Claim C3: integers and booleans are never interchangeable with each
other, nor with floats or strings: every such leaf read fails with the
exact-type mismatch error. -/
theorem c3_leaf_exactness (n : Int) (b : Bool) (loc : String) :
    Jfjson.read_rec (.int n) .tbool loc =
      .error (.conv ⟨.typeMismatch .intC (.ofTy .tbool), loc, none⟩) ∧
    Jfjson.read_rec (.int n) .tfloat loc =
      .error (.conv ⟨.typeMismatch .intC (.ofTy .tfloat), loc, none⟩) ∧
    Jfjson.read_rec (.int n) .tstr loc =
      .error (.conv ⟨.typeMismatch .intC (.ofTy .tstr), loc, none⟩) ∧
    Jfjson.read_rec (.bool b) .tint loc =
      .error (.conv ⟨.typeMismatch .boolC (.ofTy .tint), loc, none⟩) ∧
    Jfjson.read_rec (.bool b) .tfloat loc =
      .error (.conv ⟨.typeMismatch .boolC (.ofTy .tfloat), loc, none⟩) ∧
    Jfjson.read_rec (.bool b) .tstr loc =
      .error (.conv ⟨.typeMismatch .boolC (.ofTy .tstr), loc, none⟩) := by
  refine ⟨?_, ?_, ?_, ?_, ?_, ?_⟩ <;>
    simp [Jfjson.read_rec, tyArgs, tyOrigin, TyOrigin.isUnion,
      TyOrigin.isNoneType, originHasLeafClass, tyIsClassOf, Value.pyType]

/-- Claim C5: a sequence value read against a union with more than one
list-shaped alternative fails with the ambiguity error at the union's own
location, before any element is examined. -/
theorem c5_union_list_ambiguity (xs : List Value) (alts : List Ty)
    (loc : String) (h : 1 < (alts.filter isListOrigin).length) :
    Jfjson.read_rec (.list xs) (.union alts) loc =
      .error (.conv ⟨.ambiguousList (alts.filter isListOrigin) (.list xs),
        loc, none⟩) := by
  have hEmp : (alts.filter isListOrigin).isEmpty = false := by
    cases hF : alts.filter isListOrigin with
    | nil => rw [hF] at h; simp at h
    | cons a rest => simp
  simp [Jfjson.read_rec, tyArgs, tyOrigin, TyOrigin.isUnion, hEmp, h,
    Bind.bind, Except.bind, Pure.pure, Except.pure]

/-- Witness for C5, at the spec's own example: reading `["a"]` against
`Union(List[str], List[int])`. -/
theorem c5_union_list_ambiguity_witness :
    Jfjson.read_rec (.list [.str "a"]) (.union [.tlist .tstr, .tlist .tint]) "." =
      .error (.conv ⟨.ambiguousList [.tlist .tstr, .tlist .tint]
        (.list [.str "a"]), ".", none⟩) := by
  have := c5_union_list_ambiguity [.str "a"] [.tlist .tstr, .tlist .tint] "."
    (by simp [isListOrigin])
  simpa [isListOrigin] using this

/-- Claim C7: a mapping read against a record descriptor with keys outside
the record's field set fails at the record's own location, naming the
unknown keys and the full expected field set. -/
theorem c7_unknown_field_rejection (entries : List (String × Value))
    (name : String) (fields : List (String × Ty))
    (dflts : List (String × SValue)) (loc : String)
    (h : (entries.map Prod.fst).filter
      (fun k => !((fields.map Prod.fst).contains k)) ≠ []) :
    Jfjson.read_rec (.dict entries) (.record name fields dflts) loc =
      .error (.conv ⟨.unknownAttrs (fields.map Prod.fst)
        ((entries.map Prod.fst).filter
          (fun k => !((fields.map Prod.fst).contains k))), loc, none⟩) := by
  simp [Jfjson.read_rec, Jfjson.read_class_instance, tyArgs, tyOrigin,
    TyOrigin.isUnion, valid_type_for_dict, Value.pyType, isPyType, attrsOf,
    Bind.bind, Except.bind, Pure.pure, Except.pure]
  intro hAll
  exfalso
  apply h
  rw [List.filter_eq_nil_iff]
  intro a ha
  rcases List.mem_map.mp ha with ⟨⟨k, v⟩, hkv, rfl⟩
  rcases hAll k v hkv with ⟨t, ht⟩
  have : (k, t).1 ∈ fields.map Prod.fst := List.mem_map_of_mem Prod.fst ht
  simp_all

/-- Witness for C7, at the spec's own example: `{"s": "x", "extra": 1}`
against a record with the single field `s`. -/
theorem c7_unknown_field_rejection_witness :
    Jfjson.read_rec (.dict [("s", .str "x"), ("extra", .int 1)])
      (.record "R" [("s", .tstr)] []) "." =
      .error (.conv ⟨.unknownAttrs ["s"] ["extra"], ".", none⟩) := by
  have := c7_unknown_field_rejection [("s", .str "x"), ("extra", .int 1)]
    "R" [("s", .tstr)] [] "." (by simp)
  simpa using this

/-- Claim C9: writing a mapping with non-string keys fails at the mapping's
own location, naming all offending keys. -/
theorem c9_nonstring_key_rejection (entries : List (JKey × SValue))
    (loc : String)
    (h : (entries.map Prod.fst).filter (fun k => isStrKey k = false) ≠ []) :
    Jfjson.write_rec (.dict entries) loc =
      .error (.conv ⟨.badWriteKeys
        ((entries.map Prod.fst).filter (fun k => isStrKey k = false)),
        loc, none⟩) := by
  simp [Jfjson.write_rec, Bind.bind, Except.bind, Pure.pure, Except.pure]
  intro hAll
  exfalso
  apply h
  rw [List.filter_eq_nil_iff]
  intro a ha
  rcases List.mem_map.mp ha with ⟨⟨k, v⟩, hkv, rfl⟩
  have := hAll k v hkv
  simp_all

/-- Witness for C9, at the test suite's own example: a nested dict with the
keys `a`, a bytes key and a None key. -/
theorem c9_nonstring_key_rejection_witness :
    Jfjson.write_rec (.dict [(.str "a", .int 2), (.bytes "binary", .int 3),
      (.nullKey, .int 4)]) ".inner" =
      .error (.conv ⟨.badWriteKeys [.bytes "binary", .nullKey],
        ".inner", none⟩) := by
  have := c9_nonstring_key_rejection [(.str "a", .int 2),
    (.bytes "binary", .int 3), (.nullKey, .int 4)] ".inner"
    (by simp [isStrKey])
  simpa [isStrKey] using this

/-- Two distinct members make a list longer than one element. -/
theorem one_lt_length_of_two_mem {α : Type} {a b : α} {l : List α}
    (ha : a ∈ l) (hb : b ∈ l) (hab : a ≠ b) : 1 < l.length := by
  induction l with
  | nil => cases ha
  | cons c rest ih =>
    rcases List.mem_cons.mp ha with rfl | ha2
    · rcases List.mem_cons.mp hb with rfl | hb2
      · exact absurd rfl hab
      · have : 0 < rest.length := List.length_pos_of_mem hb2
        simp only [List.length_cons]
        omega
    · have : 0 < rest.length := List.length_pos_of_mem ha2
      simp only [List.length_cons]
      omega

/-- Claim C6: a mapping read against a union holding both a `Dict[...]`
alternative and a record alternative fails with the dict ambiguity error at
the union's own location, whatever keys the mapping actually holds. -/
theorem c6_union_dict_ambiguity (entries : List (String × Value))
    (alts : List Ty) (kt vt : Ty) (rname : String)
    (rfields : List (String × Ty)) (rdflts : List (String × SValue))
    (loc : String) (hm : Ty.tdict kt vt ∈ alts)
    (hr : Ty.record rname rfields rdflts ∈ alts) :
    Jfjson.read_rec (.dict entries) (.union alts) loc =
      .error (.conv ⟨.ambiguousDict (alts.filter valid_type_for_dict)
        (.dict entries), loc, none⟩) := by
  have hmf : Ty.tdict kt vt ∈ alts.filter valid_type_for_dict := by
    rw [List.mem_filter]
    exact ⟨hm, by simp [valid_type_for_dict]⟩
  have hrf : Ty.record rname rfields rdflts ∈ alts.filter valid_type_for_dict := by
    rw [List.mem_filter]
    exact ⟨hr, by simp [valid_type_for_dict]⟩
  have hlen : 1 < (alts.filter valid_type_for_dict).length :=
    one_lt_length_of_two_mem hmf hrf (by simp)
  have hEmp : (alts.filter valid_type_for_dict).isEmpty = false := by
    cases hF : alts.filter valid_type_for_dict with
    | nil => rw [hF] at hlen; simp at hlen
    | cons x rest => simp
  simp [Jfjson.read_rec, tyArgs, tyOrigin, TyOrigin.isUnion, hEmp, hlen,
    Bind.bind, Except.bind, Pure.pure, Except.pure]

/-- Witness for C6: `{"k": 1}` against `Union(Dict[str, int], R)` where `R`
is a record whose single field `k` would match the keys present. -/
theorem c6_union_dict_ambiguity_witness :
    Jfjson.read_rec (.dict [("k", .int 1)])
      (.union [.tdict .tstr .tint, .record "R" [("k", .tint)] []]) "." =
      .error (.conv ⟨.ambiguousDict [.tdict .tstr .tint, .record "R" [("k", .tint)] []]
        (.dict [("k", .int 1)]), ".", none⟩) := by
  have := c6_union_dict_ambiguity [("k", .int 1)]
    [.tdict .tstr .tint, .record "R" [("k", .tint)] []]
    .tstr .tint "R" [("k", .tint)] [] "." (by simp) (by simp)
  simpa [valid_type_for_dict] using this

/-- Claim C8: reading `{"b": {"cs": [], "t": {"y": 2}}}` against `A` fails
at the location `.b.t` of the record whose construction failed, with a
message naming the record `T` and the supplied field mapping `{y: 2}`, and
with the missing-field constructor failure preserved as the chained
cause. -/
theorem c8_nested_ctor_failure :
    Jfjson.read (.dict [("b", .dict [("cs", .list []), ("t", .dict [("y", .int 2)])])]) tyA =
      .error (.conv ⟨.objectCreationFailed "T" [("y", .int 2)], ".b.t",
        some (.ctorFailure "T" ["x"])⟩) := by
  simp +decide [Jfjson.read, Jfjson.read_rec, Jfjson.read_class_instance,
    Jfjson.read_kwargs, Jfjson.read_list_items, tyA, tyB, tyT, tyC, tyArgs,
    tyOrigin, TyOrigin.isUnion, TyOrigin.isNoneType, isListOrigin, isTNone,
    valid_type_for_dict, Value.pyType, tyIsClassOf, originHasLeafClass,
    isPyType, attrsOf, tyName, constructTy, List.lookup, endsWithDot,
    Value.toS, Value.toSL, Value.toSD, pyEq,
    Bind.bind, Except.bind, Pure.pure, Except.pure]

/-- Counterexample to claim C4 as stated: reading Null against `Any`
succeeds although `Any` is neither `Leaf(Null)` nor a union containing
it. -/
theorem c4_null_exactness_counterexample : ¬ ClaimC4 := by
  intro h
  have hAny := (h Ty.any ".").mp (by simp [Jfjson.read_rec, okPart, Value.toS])
  rcases hAny with h1 | ⟨alts, h2, _⟩
  · exact Ty.noConfusion h1
  · exact Ty.noConfusion h2

/-- Claim C4 as amended: reading Null succeeds exactly when the target is
`Any`, `Leaf(Null)`, a union containing `Leaf(Null)`, or an enum with a
member whose stored value is None; on `Optional(Leaf(String))` it yields
the null-equivalent, and on `Leaf(String)` it fails with the type
mismatch error. -/
theorem c4_null_acceptance :
    (∀ (t : Ty) (loc : String),
      (okPart (Jfjson.read_rec Value.null t loc)).isSome = nullOk t) ∧
    Jfjson.read Value.null (.union [.tstr, .tnone]) = .ok .null ∧
    Jfjson.read Value.null .tstr =
      .error (.conv ⟨.typeMismatch .noneC (.ofTy .tstr), ".", none⟩) := by
  refine ⟨?_, ?_, ?_⟩
  · intro t loc
    cases t with
    | any => simp [Jfjson.read_rec, okPart, Value.toS, nullOk]
    | tenum n members =>
      cases hF : members.find? (fun m => pyEq m.2 .null) with
      | none =>
        simp [Jfjson.read_rec, hF, okPart, nullOk]
        intro a b hab
        have := List.find?_eq_none.mp hF (a, b) hab
        simpa using this
      | some m =>
        simp [Jfjson.read_rec, hF, okPart, nullOk]
        refine ⟨m.1, m.2, by simpa using List.mem_of_find?_eq_some hF, ?_⟩
        have := List.find?_some hF
        simpa using this
    | union alts =>
      by_cases hOpt : alts.any isTNone = true
      · simp [Jfjson.read_rec, tyArgs, tyOrigin, TyOrigin.isUnion,
          TyOrigin.isNoneType, hOpt, okPart, nullOk]
      · simp [Jfjson.read_rec, tyArgs, tyOrigin, TyOrigin.isUnion,
          TyOrigin.isNoneType, hOpt, okPart, nullOk]
    | tnone => simp [Jfjson.read_rec, tyArgs, tyOrigin, TyOrigin.isUnion,
        TyOrigin.isNoneType, okPart, nullOk, Value.toS]
    | tbool => simp [Jfjson.read_rec, tyArgs, tyOrigin, TyOrigin.isUnion,
        TyOrigin.isNoneType, okPart, nullOk]
    | tint => simp [Jfjson.read_rec, tyArgs, tyOrigin, TyOrigin.isUnion,
        TyOrigin.isNoneType, okPart, nullOk]
    | tfloat => simp [Jfjson.read_rec, tyArgs, tyOrigin, TyOrigin.isUnion,
        TyOrigin.isNoneType, okPart, nullOk]
    | tstr => simp [Jfjson.read_rec, tyArgs, tyOrigin, TyOrigin.isUnion,
        TyOrigin.isNoneType, okPart, nullOk]
    | tlist e => simp [Jfjson.read_rec, tyArgs, tyOrigin, TyOrigin.isUnion,
        TyOrigin.isNoneType, okPart, nullOk]
    | tdict k v => simp [Jfjson.read_rec, tyArgs, tyOrigin, TyOrigin.isUnion,
        TyOrigin.isNoneType, okPart, nullOk]
    | record n fs ds => simp [Jfjson.read_rec, tyArgs, tyOrigin, TyOrigin.isUnion,
        TyOrigin.isNoneType, okPart, nullOk]
  · simp [Jfjson.read, Jfjson.read_rec, tyArgs, tyOrigin, TyOrigin.isUnion,
      TyOrigin.isNoneType, isTNone, Value.toS]
  · simp [Jfjson.read, Jfjson.read_rec, tyArgs, tyOrigin, TyOrigin.isUnion,
      TyOrigin.isNoneType, Value.pyType]

/-- Sizes are positive for runtime objects. -/
theorem svSize_pos (obj : SValue) : 0 < svSize obj := by
  cases obj <;> simp [svSize]

/-- On enum-free, instance-free data the two writers agree exactly, at
every size budget. -/
theorem writeAgreeAux : ∀ (n : Nat),
    (∀ (obj : SValue) (loc : String), svSize obj ≤ n → plainData obj = true →
      RootJfjson.write_rec obj loc = Jfjson.write_rec obj loc) ∧
    (∀ (xs : List SValue) (loc : String) (i : Nat), svSizeL xs ≤ n →
      plainDataL xs = true →
      RootJfjson.write_list_items xs loc i = Jfjson.write_list_items xs loc i) ∧
    (∀ (es : List (JKey × SValue)) (locDot : String), svSizeD es ≤ n →
      plainDataD es = true →
      RootJfjson.write_dict_items es locDot = Jfjson.write_dict_items es locDot) := by
  intro n
  induction n with
  | zero =>
    refine ⟨?_, ?_, ?_⟩
    · intro obj loc hs _
      exact absurd hs (by have := svSize_pos obj; omega)
    · intro xs loc i hs _
      cases xs with
      | nil => simp [RootJfjson.write_list_items, Jfjson.write_list_items]
      | cons x rest =>
        exact absurd hs (by have := svSize_pos x; simp [svSizeL]; try omega)
    · intro es locDot hs _
      cases es with
      | nil => simp [RootJfjson.write_dict_items, Jfjson.write_dict_items]
      | cons e rest =>
        exact absurd hs (by have := svSize_pos e.2; simp [svSizeD]; try omega)
  | succ n ih =>
    obtain ⟨ihW, ihL, ihD⟩ := ih
    refine ⟨?_, ?_, ?_⟩
    · intro obj loc hs hp
      cases obj with
      | null => simp [RootJfjson.write_rec, Jfjson.write_rec]
      | bool b => simp [RootJfjson.write_rec, Jfjson.write_rec]
      | int m => simp [RootJfjson.write_rec, Jfjson.write_rec]
      | float f => simp [RootJfjson.write_rec, Jfjson.write_rec]
      | str s => simp [RootJfjson.write_rec, Jfjson.write_rec]
      | enumv e m v => simp [plainData] at hp
      | inst nm fs => simp [plainData] at hp
      | exotic t =>
        simp [RootJfjson.write_rec, RootJfjson.write_class_instance,
          Jfjson.write_rec, Jfjson.write_class_instance,
          Bind.bind, Except.bind, Pure.pure, Except.pure]
      | list xs =>
        have hxs : svSizeL xs ≤ n := by
          simp [svSize] at hs; omega
        have := ihL xs loc 0 hxs (by simpa [plainData] using hp)
        simp [RootJfjson.write_rec, Jfjson.write_rec, this,
          Bind.bind, Except.bind, Pure.pure, Except.pure]
      | dict es =>
        have hes : svSizeD es ≤ n := by
          simp [svSize] at hs; omega
        have hD := ihD es (if endsWithDot loc then loc else loc ++ ".") hes
          (by simpa [plainData] using hp)
        simp [RootJfjson.write_rec, Jfjson.write_rec, hD,
          Bind.bind, Except.bind, Pure.pure, Except.pure]
    · intro xs loc i hs hp
      cases xs with
      | nil => simp [RootJfjson.write_list_items, Jfjson.write_list_items]
      | cons x rest =>
        have hx : svSize x ≤ n := by simp [svSizeL] at hs; omega
        have hrest : svSizeL rest ≤ n := by
          have := svSize_pos x; simp [svSizeL] at hs; omega
        simp [plainDataL] at hp
        have h1 := ihW x (loc ++ "[" ++ toString i ++ "]") hx hp.1
        have h2 := ihL rest loc (i + 1) hrest hp.2
        simp [RootJfjson.write_list_items, Jfjson.write_list_items, h1, h2,
          Bind.bind, Except.bind, Pure.pure, Except.pure]
    · intro es locDot hs hp
      cases es with
      | nil => simp [RootJfjson.write_dict_items, Jfjson.write_dict_items]
      | cons e rest =>
        obtain ⟨k, v⟩ := e
        have hv : svSize v ≤ n := by simp [svSizeD] at hs; omega
        have hrest : svSizeD rest ≤ n := by
          have := svSize_pos v; simp [svSizeD] at hs; omega
        simp [plainDataD] at hp
        have h1 := ihW v (locDot ++ "") hv hp.1
        have h2 := ihD rest locDot hrest hp.2
        cases k with
        | str s =>
          have h1 := ihW v (locDot ++ s) hv hp.1
          simp [RootJfjson.write_dict_items, Jfjson.write_dict_items, h1, h2,
            Bind.bind, Except.bind, Pure.pure, Except.pure]
        | int m => simp [RootJfjson.write_dict_items, Jfjson.write_dict_items]
        | bool b => simp [RootJfjson.write_dict_items, Jfjson.write_dict_items]
        | nullKey => simp [RootJfjson.write_dict_items, Jfjson.write_dict_items]
        | bytes s => simp [RootJfjson.write_dict_items, Jfjson.write_dict_items]

/-- Bind of an ok computation reduces to the continuation. -/
theorem exc_bind_ok {α β : Type} (a : α) (f : α → Except Err β) :
    (Except.ok a >>= f) = f a := rfl

/-- Bind of a failed computation short-circuits. -/
theorem exc_bind_error {α β : Type} (e : Err) (f : α → Except Err β) :
    ((Except.error e : Except Err α) >>= f) = Except.error e := rfl

/-- Congruence for the success projection through a monadic bind. -/
theorem okPart_bind {α β : Type} {x y : Except Err α} {f g : α → Except Err β}
    (h : okPart x = okPart y) (hfg : ∀ a, okPart (f a) = okPart (g a)) :
    okPart (x >>= f) = okPart (y >>= g) := by
  cases x with
  | error e =>
    cases y with
    | error e2 => simp [okPart, Bind.bind, Except.bind]
    | ok b => simp [okPart] at h
  | ok a =>
    cases y with
    | error e2 => simp [okPart] at h
    | ok b =>
      simp [okPart] at h
      subst h
      simpa [Bind.bind, Except.bind] using hfg a

/-- Every member of an enum-free alternatives list is enum-free. -/
theorem enumFreeL_mem {alts : List Ty} {t : Ty} (h : enumFreeL alts = true)
    (ht : t ∈ alts) : enumFree t = true := by
  induction alts with
  | nil => cases ht
  | cons a rest ih =>
    simp [enumFreeL] at h
    rcases List.mem_cons.mp ht with rfl | h2
    · exact h.1
    · exact ih h.2 h2

/-- A field annotation looked up in an enum-free annotation dict is
enum-free. -/
theorem enumFreeF_lookup {attrs : List (String × Ty)} {k : String} {t : Ty}
    (h : enumFreeF attrs = true) (hl : List.lookup k attrs = some t) :
    enumFree t = true := by
  induction attrs with
  | nil => simp [List.lookup] at hl
  | cons a rest ih =>
    obtain ⟨ak, at2⟩ := a
    simp [enumFreeF] at h
    rw [List.lookup] at hl
    by_cases hk : k == ak
    · simp [hk] at hl
      subst hl
      exact h.1
    · simp [hk] at hl
      exact ih h.2 hl

/-- Sizes of values are positive. -/
theorem value_sizeOf_pos (v : Value) : 0 < sizeOf v := by
  cases v <;> simp_arith

/-- On null-free values and enum-free targets the two readers succeed on
exactly the same inputs, with the same result, at every size budget. -/
theorem readAgreeAux : ∀ (n : Nat),
    (∀ (obj : Value) (target : Ty) (loc : String), sizeOf obj ≤ n →
      nullFree obj = true → enumFree target = true →
      okPart (Jfjson.read_rec obj target loc) =
        okPart (RootJfjson.read_rec obj target loc)) ∧
    (∀ (entries : List (String × Value)) (target : Ty) (loc : String),
      sizeOf entries ≤ n → nullFreeD entries = true → enumFree target = true →
      okPart (Jfjson.read_class_instance entries target loc) =
        okPart (RootJfjson.read_class_instance entries target loc)) ∧
    (∀ (entries : List (String × Value)) (attrs : List (String × Ty))
      (sloc : String), sizeOf entries ≤ n → nullFreeD entries = true →
      enumFreeF attrs = true →
      okPart (Jfjson.read_kwargs entries attrs sloc) =
        okPart (RootJfjson.read_kwargs entries attrs sloc)) ∧
    (∀ (xs : List Value) (inner : Ty) (loc : String) (i : Nat),
      sizeOf xs ≤ n → nullFreeL xs = true → enumFree inner = true →
      okPart (Jfjson.read_list_items xs inner loc i) =
        okPart (RootJfjson.read_list_items xs inner loc i)) := by
  intro n
  induction n with
  | zero =>
    refine ⟨?_, ?_, ?_, ?_⟩
    · intro obj target loc hs _ _
      exact absurd hs (by have := value_sizeOf_pos obj; omega)
    · intro entries target loc hs _ _
      exact absurd hs (by cases entries <;> simp_arith)
    · intro entries attrs sloc hs _ _
      exact absurd hs (by cases entries <;> simp_arith)
    · intro xs inner loc i hs _ _
      exact absurd hs (by cases xs <;> simp_arith)
  | succ n ih =>
    obtain ⟨ihR, ihC, ihK, ihL⟩ := ih
    have hK : ∀ (entries : List (String × Value)) (attrs : List (String × Ty))
        (sloc : String), sizeOf entries ≤ n + 1 → nullFreeD entries = true →
        enumFreeF attrs = true →
        okPart (Jfjson.read_kwargs entries attrs sloc) =
          okPart (RootJfjson.read_kwargs entries attrs sloc) := by
      intro entries attrs sloc hs hn he
      cases entries with
      | nil => simp [Jfjson.read_kwargs, RootJfjson.read_kwargs]
      | cons e rest =>
        obtain ⟨key, value⟩ := e
        have hsv : sizeOf value ≤ n := by simp_arith at hs; omega
        have hsr : sizeOf rest ≤ n := by
          have := value_sizeOf_pos value
          simp_arith at hs
          omega
        simp only [nullFreeD] at hn
        rw [Bool.and_eq_true] at hn
        cases hLk : List.lookup key attrs with
        | none => simp [Jfjson.read_kwargs, RootJfjson.read_kwargs, hLk, okPart]
        | some fieldTy =>
          have hft : enumFree fieldTy = true := enumFreeF_lookup he hLk
          simp only [Jfjson.read_kwargs, RootJfjson.read_kwargs, hLk]
          exact okPart_bind (ihR value fieldTy (sloc ++ key) hsv hn.1 hft)
            (fun v => okPart_bind (ihK rest attrs sloc hsr hn.2 he)
              (fun vs => rfl))
    have hL : ∀ (xs : List Value) (inner : Ty) (loc : String) (i : Nat),
        sizeOf xs ≤ n + 1 → nullFreeL xs = true → enumFree inner = true →
        okPart (Jfjson.read_list_items xs inner loc i) =
          okPart (RootJfjson.read_list_items xs inner loc i) := by
      intro xs inner loc i hs hn he
      cases xs with
      | nil => simp [Jfjson.read_list_items, RootJfjson.read_list_items]
      | cons x rest =>
        have hsx : sizeOf x ≤ n := by simp_arith at hs; omega
        have hsr : sizeOf rest ≤ n := by
          have := value_sizeOf_pos x
          simp_arith at hs
          omega
        simp only [nullFreeL] at hn
        rw [Bool.and_eq_true] at hn
        simp only [Jfjson.read_list_items, RootJfjson.read_list_items]
        exact okPart_bind
          (ihR x inner (loc ++ "[" ++ toString i ++ "]") hsx hn.1 he)
          (fun v => okPart_bind (ihL rest inner loc (i + 1) hsr hn.2 he)
            (fun vs => rfl))
    have hC : ∀ (entries : List (String × Value)) (target : Ty) (loc : String),
        sizeOf entries ≤ n + 1 → nullFreeD entries = true →
        enumFree target = true →
        okPart (Jfjson.read_class_instance entries target loc) =
          okPart (RootJfjson.read_class_instance entries target loc) := by
      intro entries target loc hs hn he
      have hattr : enumFreeF (attrsOf target) = true := by
        cases target with
        | record nm fs ds => simpa [attrsOf, enumFree] using he
        | _ => simp [attrsOf, enumFreeF]
      simp only [Jfjson.read_class_instance, RootJfjson.read_class_instance]
      split
      · rename_i hT
        simp [hT, okPart]
      · rename_i hT
        split
        · rename_i hE
          simp [hT, hE, okPart]
        · rename_i hE
          exact okPart_bind
            (hK entries (attrsOf target)
              (if endsWithDot loc then loc else loc ++ ".") hs hn hattr)
            (fun kwargs => by
              cases constructTy target kwargs <;> simp [okPart])
    have hR : ∀ (obj : Value) (target : Ty) (loc : String),
        sizeOf obj ≤ n + 1 → nullFree obj = true → enumFree target = true →
        okPart (Jfjson.read_rec obj target loc) =
          okPart (RootJfjson.read_rec obj target loc) := by
      intro obj target loc hs hn he
      cases obj with
      | null => simp [nullFree] at hn
      | bool b =>
        cases target with
        | any => simp [Jfjson.read_rec, RootJfjson.read_rec]
        | tenum nm members => simp [enumFree] at he
        | _ =>
          simp only [Jfjson.read_rec, RootJfjson.read_rec]
          split <;> (first | (split <;> simp [okPart]) | simp [okPart])
      | int m =>
        cases target with
        | any => simp [Jfjson.read_rec, RootJfjson.read_rec]
        | tenum nm members => simp [enumFree] at he
        | _ =>
          simp only [Jfjson.read_rec, RootJfjson.read_rec]
          split <;> (first | (split <;> simp [okPart]) | simp [okPart])
      | float f =>
        cases target with
        | any => simp [Jfjson.read_rec, RootJfjson.read_rec]
        | tenum nm members => simp [enumFree] at he
        | _ =>
          simp only [Jfjson.read_rec, RootJfjson.read_rec]
          split <;> (first | (split <;> simp [okPart]) | simp [okPart])
      | str s =>
        cases target with
        | any => simp [Jfjson.read_rec, RootJfjson.read_rec]
        | tenum nm members => simp [enumFree] at he
        | _ =>
          simp only [Jfjson.read_rec, RootJfjson.read_rec]
          split <;> (first | (split <;> simp [okPart]) | simp [okPart])
      | list xs =>
        have hnl : nullFreeL xs = true := by simpa [nullFree] using hn
        have hsx : sizeOf xs ≤ n + 1 := by simp_arith at hs; omega
        cases target with
        | any => simp [Jfjson.read_rec, RootJfjson.read_rec]
        | tenum nm members => simp [enumFree] at he
        | tnone =>
          simp [Jfjson.read_rec, RootJfjson.read_rec, tyArgs, tyOrigin,
            TyOrigin.isUnion, okPart, exc_bind_ok, exc_bind_error]
        | tbool =>
          simp [Jfjson.read_rec, RootJfjson.read_rec, tyArgs, tyOrigin,
            TyOrigin.isUnion, okPart, exc_bind_ok, exc_bind_error]
        | tint =>
          simp [Jfjson.read_rec, RootJfjson.read_rec, tyArgs, tyOrigin,
            TyOrigin.isUnion, okPart, exc_bind_ok, exc_bind_error]
        | tfloat =>
          simp [Jfjson.read_rec, RootJfjson.read_rec, tyArgs, tyOrigin,
            TyOrigin.isUnion, okPart, exc_bind_ok, exc_bind_error]
        | tstr =>
          simp [Jfjson.read_rec, RootJfjson.read_rec, tyArgs, tyOrigin,
            TyOrigin.isUnion, okPart, exc_bind_ok, exc_bind_error]
        | record nm fs ds =>
          simp [Jfjson.read_rec, RootJfjson.read_rec, tyArgs, tyOrigin,
            TyOrigin.isUnion, okPart, exc_bind_ok, exc_bind_error]
        | tlist e =>
          have hee : enumFree e = true := by simpa [enumFree] using he
          simp only [Jfjson.read_rec, RootJfjson.read_rec, tyArgs, tyOrigin,
            TyOrigin.isUnion, Bool.false_eq_true, if_false, exc_bind_ok]
          exact okPart_bind (hL xs e loc 0 hsx hnl hee) (fun rs => rfl)
        | tdict k v =>
          have hek : enumFree k = true := by
            have := he
            simp [enumFree, Bool.and_eq_true] at this
            exact this.1
          simp only [Jfjson.read_rec, RootJfjson.read_rec, tyArgs, tyOrigin,
            TyOrigin.isUnion, Bool.false_eq_true, if_false, exc_bind_ok]
          exact okPart_bind (hL xs k loc 0 hsx hnl hek) (fun rs => rfl)
        | union alts =>
          have heL : enumFreeL alts = true := by simpa [enumFree] using he
          cases hP : alts.filter isListOrigin with
          | nil =>
            simp [Jfjson.read_rec, RootJfjson.read_rec, tyArgs, tyOrigin,
              TyOrigin.isUnion, hP, okPart, exc_bind_error]
          | cons t2 rest =>
            have hmem : t2 ∈ alts.filter isListOrigin := by
              rw [hP]; exact List.mem_cons_self _ _
            have hLO : isListOrigin t2 = true := List.of_mem_filter hmem
            have ht2a : t2 ∈ alts := List.mem_of_mem_filter hmem
            cases rest with
            | cons t3 rest2 =>
              simp [Jfjson.read_rec, RootJfjson.read_rec, tyArgs, tyOrigin,
                TyOrigin.isUnion, hP, okPart, exc_bind_error]
            | nil =>
              cases t2 with
              | tlist e =>
                have hee : enumFree e = true := by
                  have := enumFreeL_mem heL ht2a
                  simpa [enumFree] using this
                simp [Jfjson.read_rec, RootJfjson.read_rec, tyArgs,
                  tyOrigin, TyOrigin.isUnion, hP, exc_bind_ok]
                exact okPart_bind (hL xs e loc 0 hsx hnl hee) (fun rs => rfl)
              | _ => simp [isListOrigin] at hLO
      | dict entries =>
        have hnd : nullFreeD entries = true := by simpa [nullFree] using hn
        have hsn : sizeOf entries ≤ n := by simp_arith at hs; omega
        cases target with
        | any => simp [Jfjson.read_rec, RootJfjson.read_rec]
        | tenum nm members => simp [enumFree] at he
        | tnone =>
          simp [Jfjson.read_rec, RootJfjson.read_rec, tyArgs, tyOrigin,
            TyOrigin.isUnion, valid_type_for_dict, okPart]
        | tbool =>
          simp [Jfjson.read_rec, RootJfjson.read_rec, tyArgs, tyOrigin,
            TyOrigin.isUnion, valid_type_for_dict, okPart]
        | tint =>
          simp [Jfjson.read_rec, RootJfjson.read_rec, tyArgs, tyOrigin,
            TyOrigin.isUnion, valid_type_for_dict, okPart]
        | tfloat =>
          simp [Jfjson.read_rec, RootJfjson.read_rec, tyArgs, tyOrigin,
            TyOrigin.isUnion, valid_type_for_dict, okPart]
        | tstr =>
          simp [Jfjson.read_rec, RootJfjson.read_rec, tyArgs, tyOrigin,
            TyOrigin.isUnion, valid_type_for_dict, okPart]
        | tlist e =>
          simp [Jfjson.read_rec, RootJfjson.read_rec, tyArgs, tyOrigin,
            TyOrigin.isUnion, valid_type_for_dict, okPart]
        | tdict k v =>
          simp [Jfjson.read_rec, RootJfjson.read_rec, tyArgs, tyOrigin,
            TyOrigin.isUnion, valid_type_for_dict, okPart]
        | record nm fs ds =>
          simp [Jfjson.read_rec, RootJfjson.read_rec, tyArgs, tyOrigin,
            TyOrigin.isUnion, valid_type_for_dict]
          exact hC entries (.record nm fs ds) loc (by omega) hnd he
        | union alts =>
          have heL : enumFreeL alts = true := by simpa [enumFree] using he
          cases hP : alts.filter valid_type_for_dict with
          | nil =>
            simp [Jfjson.read_rec, RootJfjson.read_rec, tyArgs, tyOrigin,
              TyOrigin.isUnion, hP, okPart]
          | cons t2 rest =>
            have hmem : t2 ∈ alts.filter valid_type_for_dict := by
              rw [hP]; exact List.mem_cons_self _ _
            have hVT : valid_type_for_dict t2 = true := List.of_mem_filter hmem
            have ht2a : t2 ∈ alts := List.mem_of_mem_filter hmem
            have het2 : enumFree t2 = true := enumFreeL_mem heL ht2a
            cases rest with
            | cons t3 rest2 =>
              simp [Jfjson.read_rec, RootJfjson.read_rec, tyArgs, tyOrigin,
                TyOrigin.isUnion, hP, okPart]
            | nil =>
              cases t2 with
              | tnone => simp [valid_type_for_dict] at hVT
              | tbool => simp [valid_type_for_dict] at hVT
              | tint => simp [valid_type_for_dict] at hVT
              | tfloat => simp [valid_type_for_dict] at hVT
              | tstr => simp [valid_type_for_dict] at hVT
              | tlist e => simp [valid_type_for_dict] at hVT
              | tenum nm2 mem2 => simp [enumFree] at het2
              | tdict k2 v2 =>
                simp [Jfjson.read_rec, RootJfjson.read_rec, tyArgs, tyOrigin,
                  TyOrigin.isUnion, hP, okPart]
              | any =>
                simp [Jfjson.read_rec, RootJfjson.read_rec, tyArgs,
                  tyOrigin, TyOrigin.isUnion, hP]
                exact hC entries .any loc (by omega) hnd (by simp [enumFree])
              | union sub =>
                simp [Jfjson.read_rec, RootJfjson.read_rec, tyArgs,
                  tyOrigin, TyOrigin.isUnion, hP]
                exact hC entries (.union sub) loc (by omega) hnd het2
              | record nm2 fs2 ds2 =>
                simp [Jfjson.read_rec, RootJfjson.read_rec, tyArgs,
                  tyOrigin, TyOrigin.isUnion, hP]
                exact hC entries (.record nm2 fs2 ds2) loc (by omega) hnd het2
    exact ⟨hR, hC, hK, hL⟩

/-- Counterexample to claim C10 as stated: on reading None against
`Optional[str]` the packaged copy succeeds while the stale root copy
raises (its None branch tests `origin is not type(None) or not
is_optional`, which always holds), so the two cores are not
observationally equivalent. -/
theorem c10_equivalence_counterexample :
    Jfjson.read Value.null (.union [.tstr, .tnone]) = .ok .null ∧
    RootJfjson.read Value.null (.union [.tstr, .tnone]) =
      .error (.conv ⟨.typeMismatch .noneC .unionForm, ".", none⟩) ∧
    ¬ ClaimC10 := by
  have h1 : Jfjson.read Value.null (.union [.tstr, .tnone]) = .ok .null := by
    simp [Jfjson.read, Jfjson.read_rec, tyArgs, tyOrigin, TyOrigin.isUnion,
      TyOrigin.isNoneType, isTNone, Value.toS]
  have h2 : RootJfjson.read Value.null (.union [.tstr, .tnone]) =
      .error (.conv ⟨.typeMismatch .noneC .unionForm, ".", none⟩) := by
    simp [RootJfjson.read, RootJfjson.read_rec, tyArgs, tyOrigin,
      TyOrigin.isUnion, TyOrigin.isNoneType, isTNone, renderOrigin,
      Value.pyType]
  refine ⟨h1, h2, ?_⟩
  intro hcl
  have := hcl.1 Value.null (.union [.tstr, .tnone])
  rw [h1, h2] at this
  simp at this

/-- Claim C10 as amended: the two copies agree on the domain the stale
copy handles.  For null-free values and enum-free targets the two readers
succeed on exactly the same inputs with the same structured result (their
errors may differ in message and location), and on structured values with
no enum members and no class instances the two writers agree exactly. -/
theorem c10_restricted_equivalence :
    (∀ (obj : Value) (target : Ty) (loc : String), nullFree obj = true →
      enumFree target = true →
      okPart (Jfjson.read_rec obj target loc) =
        okPart (RootJfjson.read_rec obj target loc)) ∧
    (∀ (obj : SValue) (loc : String), plainData obj = true →
      RootJfjson.write_rec obj loc = Jfjson.write_rec obj loc) := by
  constructor
  · intro obj target loc hn he
    exact (readAgreeAux (sizeOf obj)).1 obj target loc le_rfl hn he
  · intro obj loc hp
    exact (writeAgreeAux (svSize obj)).1 obj loc le_rfl hp

/-- Witness for the amended C10, at a record read and a nested write. -/
theorem c10_restricted_equivalence_witness :
    okPart (Jfjson.read_rec (.dict [("s", .str "x")])
        (.record "C" [("s", .tstr)] []) ".") =
      okPart (RootJfjson.read_rec (.dict [("s", .str "x")])
        (.record "C" [("s", .tstr)] []) ".") ∧
    RootJfjson.write_rec (.list [.str "a", .int 12]) "." =
      Jfjson.write_rec (.list [.str "a", .int 12]) "." :=
  ⟨c10_restricted_equivalence.1 (.dict [("s", .str "x")])
      (.record "C" [("s", .tstr)] []) "."
      (by simp [nullFree, nullFreeD])
      (by simp [enumFree, enumFreeF]),
    c10_restricted_equivalence.2 (.list [.str "a", .int 12]) "."
      (by simp [plainData, plainDataL])⟩
